import Mathlib

/-!
Shallow embedding of `src/sports2d_ui.py` (Sports2D Advanced Motion Analysis UI).

Python floats are idealised as exact values of a linear ordered field
(`ℚ` where everything is rational, `ℝ` where `np.sqrt` is involved), with
IEEE NaN modelled explicitly by the `FV` type: `FV.nan` propagates through
arithmetic and makes every ordered comparison false, exactly as NaN does.
Machine behaviour that the claims do not touch (colour packing, Qt widgets,
cv2 drawing of the computed primitives) is represented by returning the
geometric primitives that would be drawn instead of a mutated image.
-/

set_option linter.unusedSectionVars false

namespace Sports2D

/-- Model of a Python/numpy float: either NaN or an exact value. -/
inductive FV (α : Type) where
  | nan : FV α
  | val (r : α) : FV α
  deriving DecidableEq

namespace FV

variable {α : Type} [LinearOrderedField α]

/-- Float addition: NaN propagates. -/
def add : FV α → FV α → FV α
  | val a, val b => val (a + b)
  | _, _ => nan

/-- Float subtraction: NaN propagates. -/
def sub : FV α → FV α → FV α
  | val a, val b => val (a - b)
  | _, _ => nan

/-- Float multiplication: NaN propagates. -/
def mul : FV α → FV α → FV α
  | val a, val b => val (a * b)
  | _, _ => nan

/-- Multiplication by a non-NaN scalar (used for `arr * s` and `arr / dt`). -/
def scale (c : α) : FV α → FV α
  | val a => val (c * a)
  | nan => nan

/-- The test `x > 0`: false on NaN, as for IEEE floats. -/
def gt0 : FV α → Bool
  | val a => decide (0 < a)
  | nan => false

/-- The test `x <= 0`: false on NaN, as for IEEE floats. -/
def le0 : FV α → Bool
  | val a => decide (a ≤ 0)
  | nan => false

/-- The test `np.isnan(x)`. -/
def isNan : FV α → Bool
  | val _ => false
  | nan => true

/-- The test `x < b` against a non-NaN bound: false on NaN. -/
def ltR (x : FV α) (b : α) : Bool :=
  match x with
  | val a => decide (a < b)
  | nan => false

@[simp] theorem add_val (a b : α) : add (val a) (val b) = val (a + b) := rfl
@[simp] theorem sub_val (a b : α) : sub (val a) (val b) = val (a - b) := rfl
@[simp] theorem mul_val (a b : α) : mul (val a) (val b) = val (a * b) := rfl
@[simp] theorem scale_val (c a : α) : scale c (val a) = val (c * a) := rfl
@[simp] theorem scale_nan (c : α) : scale c nan = (nan : FV α) := rfl
@[simp] theorem add_nan (x : FV α) : add x nan = nan := by cases x <;> rfl
@[simp] theorem nan_add (x : FV α) : add nan x = nan := by cases x <;> rfl
@[simp] theorem sub_nan (x : FV α) : sub x nan = nan := by cases x <;> rfl
@[simp] theorem nan_sub (x : FV α) : sub nan x = nan := by cases x <;> rfl
@[simp] theorem mul_nan (x : FV α) : mul x nan = nan := by cases x <;> rfl
@[simp] theorem nan_mul (x : FV α) : mul nan x = nan := by cases x <;> rfl
@[simp] theorem gt0_val (a : α) : gt0 (val a) = decide (0 < a) := rfl
@[simp] theorem gt0_nan : gt0 (nan : FV α) = false := rfl
@[simp] theorem le0_val (a : α) : le0 (val a) = decide (a ≤ 0) := rfl
@[simp] theorem le0_nan : le0 (nan : FV α) = false := rfl
@[simp] theorem isNan_val (a : α) : isNan (val a) = false := rfl
@[simp] theorem isNan_nan : isNan (nan : FV α) = true := rfl
@[simp] theorem ltR_val (a b : α) : ltR (val a) b = decide (a < b) := rfl
@[simp] theorem ltR_nan (b : α) : ltR (nan : FV α) b = false := rfl

/-- `np.sqrt` on a float: NaN on negative input or NaN input. -/
noncomputable def sqrtF : FV ℝ → FV ℝ
  | val r => if r < 0 then nan else val (Real.sqrt r)
  | nan => nan

@[simp] theorem sqrtF_nan : sqrtF nan = nan := rfl

theorem sqrtF_val_of_nonneg {r : ℝ} (h : 0 ≤ r) :
    sqrtF (val r) = val (Real.sqrt r) := by
  simp [sqrtF, not_lt.mpr h]

/-- Subtracting and re-adding the same non-NaN value is the identity,
whether or not the float in question is NaN. -/
theorem sub_add_cancel_val (x : FV α) (h : α) :
    add (sub x (val h)) (val h) = x := by
  cases x with
  | nan => rfl
  | val a => simp

end FV

/-- A marker's per-frame pixel coordinate series (`markers_data[name]`). -/
structure MarkerSeries (α : Type) where
  x : List (FV α)
  y : List (FV α)
  deriving DecidableEq

/-! ### `np.gradient`

`np.gradient(a, dt)` uses the one-sided difference `(a[1]-a[0])/dt` at the
first sample, centered differences `(a[i+1]-a[i-1])/(2*dt)` in the interior
and the one-sided difference `(a[n-1]-a[n-2])/dt` at the last sample.
(`np.gradient` raises on inputs of length < 2; such inputs never reach it
in the claims below, and the embedding returns `[]` there.) -/

variable {α : Type}

/-- Interior/last part of `np.gradient`: `prev` is the sample two behind
the head of the remaining list. -/
def gradAux [LinearOrderedField α] (dt : α) : FV α → List (FV α) → List (FV α)
  | prev, [x] => [(FV.sub x prev).scale (1 / dt)]
  | prev, x :: y :: t => (FV.sub y prev).scale (1 / (2 * dt)) :: gradAux dt x (y :: t)
  | _, [] => []

/-- `np.gradient(l, dt)`. -/
def npGradient [LinearOrderedField α] (dt : α) : List (FV α) → List (FV α)
  | a :: b :: t => (FV.sub b a).scale (1 / dt) :: gradAux dt a (b :: t)
  | _ => []

/-! ### `scipy.signal.savgol_filter(arr, 11, 3)` (mode `interp`)

The filter fits a cubic least-squares polynomial over a sliding window of
11 samples.  Interior outputs are the fitted value at the window centre;
the first and last 5 outputs are the fitted values of the cubic fitted to
the first (resp. last) 11 samples (scipy's `mode='interp'` edge handling).
All of these are fixed rational linear combinations of the window samples:
`hatRow i` is row `i` of the degree-3 least-squares hat matrix
`A (Aᵀ A)⁻¹ Aᵀ` for nodes `0..10`; row 5 is the classical symmetric
Savitzky-Golay smoothing kernel `(267 - 15 (k-5)²)/1287`. -/

/-- Row `i` of the 11-point cubic least-squares hat matrix. -/
def hatRow : ℕ → List ℚ
  | 0 => [113/143, 48/143, 8/143, -12/143, -17/143, -12/143, -2/143, 8/143, 1/11, 8/143, -12/143]
  | 1 => [48/143, 41/143, 32/143, 2/13, 12/143, 3/143, -4/143, -8/143, -8/143, -3/143, 8/143]
  | 2 => [8/143, 32/143, 41/143, 116/429, 86/429, 4/39, 1/429, -32/429, -4/39, -8/143, 1/11]
  | 3 => [-12/143, 2/13, 116/429, 251/858, 106/429, 23/143, 2/33, -23/858, -32/429, -8/143, 8/143]
  | 4 => [-17/143, 12/143, 86/429, 106/429, 103/429, 28/143, 56/429, 2/33, 1/429, -4/143, -2/143]
  | 5 => [-12/143, 3/143, 4/39, 23/143, 28/143, 89/429, 28/143, 23/143, 4/39, 3/143, -12/143]
  | 6 => [-2/143, -4/143, 1/429, 2/33, 56/429, 28/143, 103/429, 106/429, 86/429, 12/143, -17/143]
  | 7 => [8/143, -8/143, -32/429, -23/858, 2/33, 23/143, 106/429, 251/858, 116/429, 2/13, -12/143]
  | 8 => [1/11, -8/143, -4/39, -32/429, 1/429, 4/39, 86/429, 116/429, 41/143, 32/143, 8/143]
  | 9 => [8/143, -3/143, -8/143, -8/143, -4/143, 3/143, 12/143, 2/13, 32/143, 41/143, 48/143]
  | 10 => [-12/143, 8/143, 1/11, 8/143, -2/143, -12/143, -17/143, -12/143, 8/143, 48/143, 113/143]
  | _ => []

/-- Weighted sum of float samples with rational weights (NaN propagates
through the samples that actually enter the sum). -/
def wsum [LinearOrderedField α] : List ℚ → List (FV α) → FV α
  | w :: ws, x :: xs => FV.add (x.scale ((w : α))) (wsum ws xs)
  | _, _ => FV.val 0

/-- `savgol_filter(l, 11, 3)` with `mode='interp'`. -/
def savgol11 [LinearOrderedField α] (l : List (FV α)) : List (FV α) :=
  List.ofFn (fun i : Fin l.length =>
    if i.val < 5 then wsum (hatRow i.val) (l.take 11)
    else if l.length ≤ i.val + 5 then
      wsum (hatRow (i.val + 11 - l.length)) (l.drop (l.length - 11))
    else wsum (hatRow 5) ((l.drop (i.val - 5)).take 11))

/-- `smooth(arr, win=11, poly=3)` from the source: apply the filter only
when the series is longer than the window.  Every call site of `smooth`
in the source uses the defaults `win=11`, `poly=3`, which are fixed here. -/
def smooth [LinearOrderedField α] (arr : List (FV α)) : List (FV α) :=
  if 11 < arr.length then savgol11 arr else arr

/-! ### `Sports2DLoader.load_trc`

The file is modelled as its list of lines (newline terminators already
stripped; Python `split()`/`strip()`/`pandas` all discard them anyway).
The Python built-ins `float(...)`/`int(...)` and the `pandas` cell parser
are abstracted as parameters `pf`/`pint`; both raise on malformed text,
which — like every other exception inside `load_trc`'s `try` block — makes
the loader return `None`, so they are modelled as `Option`-valued.  The
whole loader is one `Option` chain: any failure yields `none` and no
partial result is published. -/

/-- Whitespace characters recognised by Python's `str.split()` and
`str.strip()`. -/
def isWs (c : Char) : Bool :=
  c = ' ' || c = '\t' || c = '\n' || c = '\r'

/-- Split a character list at every separator, keeping empty pieces
(the behaviour of Python's `s.split(sep)`). -/
def splitChars (sep : Char → Bool) : List Char → List (List Char)
  | [] => [[]]
  | ch :: cs =>
    match splitChars sep cs, sep ch with
    | r, true => [] :: r
    | h :: t, false => (ch :: h) :: t
    | [], false => [[ch]]

/-- Python `s.split(sep)` for a character predicate, on strings. -/
def splitStr (sep : Char → Bool) (s : String) : List String :=
  (splitChars sep s.data).map (fun l => ⟨l⟩)

/-- Python `s.strip()`: drop leading and trailing whitespace. -/
def pyStrip (s : String) : String :=
  ⟨((s.data.dropWhile (fun ch => isWs ch)).reverse.dropWhile
      (fun ch => isWs ch)).reverse⟩

/-- Python `s.split()` with no separator: split on whitespace runs,
discarding empty pieces. -/
def splitWs (s : String) : List String :=
  (splitStr isWs s).filter (fun p => p != "")

/-- Result of `load_trc`. -/
structure TrcData (α : Type) where
  frame_count : ℤ
  data_rate : FV α
  markers : List (String × MarkerSeries α)
  marker_list : List String
  time : List (FV α)
  deriving DecidableEq

/-- Option-valued map over a list, failing as a whole when any element
fails (the effect of an exception escaping a parsing loop). -/
def mapMO (f : β → Option γ) : List β → Option (List γ)
  | [] => some []
  | a :: l => (f a).bind fun b => (mapMO f l).map (b :: ·)

/-- `data.iloc[:, j]`: column `j` of the tab-split data rows, parsed;
fails if some row lacks the column or a cell does not parse. -/
def column (pf : String → Option (FV α)) (rows : List (List String)) (j : ℕ) :
    Option (List (FV α)) :=
  mapMO (fun r => (r.get? j).bind pf) rows

/-- `Sports2DLoader.load_trc`.  Header tokens come from the
whitespace-split line 2 (0-indexed); marker names from the tab-split
line 3 with blanks and the reserved labels dropped; data rows are the
tab-split lines after the 5 header lines; marker `i` reads columns
`3*i+2` and `3*i+3`, time is column 1. -/
def load_trc (pf : String → Option (FV α)) (pint : String → Option ℤ)
    (lines : List String) : Option (TrcData α) :=
  (lines.get? 2).bind fun l2 =>
  (((splitWs l2).get? 0).bind pf).bind fun data_rate =>
  (((splitWs l2).get? 2).bind pint).bind fun num_frames =>
  (lines.get? 3).bind fun l3 =>
    let marker_names := ((splitStr (fun c => c = '\t') l3).map pyStrip).filter
        (fun n => n != "" && n != "Frame#" && n != "Time")
    let rows := (lines.drop 5).map (fun ln => splitStr (fun c => c = '\t') ln)
    (mapMO (fun p =>
        (column pf rows (p.1 * 3 + 2)).bind fun xs =>
        (column pf rows (p.1 * 3 + 3)).bind fun ys =>
        some (p.2, MarkerSeries.mk xs ys)) marker_names.enum).bind fun markers =>
    (column pf rows 1).bind fun time =>
    some ⟨num_frames, data_rate, markers, marker_names, time⟩

/-- Result of `load_mot` (consumed by the angle branch of
`_compute_kinematics`). -/
structure MotData (α : Type) where
  angles : List (String × List (FV α))
  angle_list : List String
  time : List (FV α)
  deriving DecidableEq

/-- The static `MARKER_TO_ANGLE` table. -/
def MARKER_TO_ANGLE : List (String × String) :=
  [("RAnkle", "right ankle"), ("LAnkle", "left ankle"),
   ("RKnee", "right knee"), ("LKnee", "left knee"),
   ("RHip", "right hip"), ("LHip", "left hip"),
   ("RShoulder", "right shoulder"), ("LShoulder", "left shoulder"),
   ("RElbow", "right elbow"), ("LElbow", "left elbow"),
   ("RWrist", "right forearm"), ("LWrist", "left forearm"),
   ("RBigToe", "right foot"), ("RSmallToe", "right foot"), ("RHeel", "right foot"),
   ("LBigToe", "left foot"), ("LSmallToe", "left foot"), ("LHeel", "left foot"),
   ("Hip", "pelvis"), ("Neck", "trunk"), ("Head", "head"), ("Nose", "head")]

/-! ### `Sports2DApp._compute_kinematics` -/

/-- The kinematics cache fields written by `_compute_kinematics`. -/
structure KinCache where
  time : List (FV ℝ)
  vx : List (FV ℝ)
  vy : List (FV ℝ)
  vtotal : List (FV ℝ)
  ax : List (FV ℝ)
  ay : List (FV ℝ)
  atotal : List (FV ℝ)
  angle : Option (List (FV ℝ))
  angVel : Option (List (FV ℝ))
  angAcc : Option (List (FV ℝ))
  angleName : Option String

/-- The position scale: `1.0 / self.px_per_unit if self.px_per_unit else
1.0` (Python truthiness: both `None` and `0.0` give 1). -/
noncomputable def scaleOf (ppu : Option ℝ) : ℝ :=
  match ppu with
  | some p => if p = 0 then 1 else 1 / p
  | none => 1

/-- Elementwise `np.sqrt(a**2 + b**2)` of two series. -/
noncomputable def magnitude (u v : List (FV ℝ)) : List (FV ℝ) :=
  List.zipWith (fun a b => FV.sqrtF (FV.add (FV.mul a a) (FV.mul b b))) u v

/-- `Sports2DApp._compute_kinematics` for a selected joint.  Returns
`none` when the selected joint is absent from the marker dictionary or
the header sample rate is NaN or zero (the Python code would raise a
`KeyError` / `ZeroDivisionError` there).  The scale `s` follows the
Python truthiness test `1.0 / self.px_per_unit if self.px_per_unit else
1.0` (both `None` and `0.0` give 1). -/
noncomputable def computeKinematics (sel : String) (trc : TrcData ℝ)
    (mot : Option (MotData ℝ)) (pxPerUnit : Option ℝ) : Option KinCache :=
  match trc.markers.lookup sel, trc.data_rate with
  | some c, FV.val rate =>
    if rate = 0 then none
    else
      let dt : ℝ := 1 / rate
      let t := trc.time
      let s : ℝ := scaleOf pxPerUnit
      let vxRaw := npGradient dt (c.x.map (FV.scale s))
      let vyRaw := npGradient dt (c.y.map (FV.scale s))
      let vx := smooth vxRaw
      let vy := smooth vyRaw
      let vtotal := smooth (magnitude vxRaw vyRaw)
      let axRaw := npGradient dt vx
      let ayRaw := npGradient dt vy
      let ax := smooth axRaw
      let ay := smooth ayRaw
      let atotal := smooth (magnitude axRaw ayRaw)
      match MARKER_TO_ANGLE.lookup sel, mot with
      | some angleCol, some m =>
        match m.angles.lookup angleCol with
        | some rawAngle =>
          let n := min t.length rawAngle.length
          let angle := rawAngle.take n
          let angVel := smooth (npGradient dt angle)
          let angAcc := smooth (npGradient dt angVel)
          some ⟨t, vx, vy, vtotal, ax, ay, atotal,
                some angle, some angVel, some angAcc, some angleCol⟩
        | none => some ⟨t, vx, vy, vtotal, ax, ay, atotal, none, none, none, none⟩
      | _, _ => some ⟨t, vx, vy, vtotal, ax, ay, atotal, none, none, none, none⟩
  | _, _ => none

/-! ### Calibration (`_on_calibration_line`, `_scale_val`) -/

/-- The calibration state of the app. -/
structure CalState where
  pxPerUnit : Option ℝ
  unitName : String

/-- Pixel distance of a user-drawn line: convert both endpoints from
display coordinates back to frame-pixel coordinates via
`(display - offset) / scale_factor`, then take the Euclidean distance. -/
noncomputable def pxDist (p1 p2 : ℝ × ℝ) (offx offy sf : ℝ) : ℝ :=
  let vx1 := (p1.1 - offx) / sf
  let vy1 := (p1.2 - offy) / sf
  let vx2 := (p2.1 - offx) / sf
  let vy2 := (p2.2 - offy) / sf
  Real.sqrt ((vx2 - vx1) ^ 2 + (vy2 - vy1) ^ 2)

/-- `Sports2DApp._on_calibration_line`: reject lines under 5 pixels
(state unchanged); otherwise prompt for a real length — `ok` and `len`
model the dialog result — and accept only a confirmed positive length,
setting `px_per_unit = px_dist / len` and the unit to metres.  Every
other outcome leaves the calibration state unchanged. -/
noncomputable def onCalibrationLine (st : CalState) (p1 p2 : ℝ × ℝ)
    (offx offy sf : ℝ) (ok : Bool) (len : ℝ) : CalState :=
  let d := pxDist p1 p2 offx offy sf
  if d < 5 then st
  else if ok ∧ 0 < len then ⟨some (d / len), "m"⟩
  else st

/-- `Sports2DApp._scale_val`, including the Python truthiness test
`if self.px_per_unit:` (both `None` and `0.0` leave the value as is). -/
noncomputable def scaleVal (st : CalState) (v : ℝ) : ℝ :=
  match st.pxPerUnit with
  | some p => if p = 0 then v else v / p
  | none => v

/-! ### `Sports2DApp._on_video_click` -/

/-- `np.hypot(a, b)` on floats. -/
noncomputable def hypotF (a b : FV ℝ) : FV ℝ :=
  FV.sqrtF (FV.add (FV.mul a a) (FV.mul b b))

/-- The scan's per-marker validity checks: a sample exists at the current
frame and its x coordinate is neither `<= 0` nor NaN. -/
def markerPass (cf : ℕ) (m : String × MarkerSeries ℝ) : Prop :=
  cf < m.2.x.length ∧ (m.2.x.getD cf FV.nan).le0 = false ∧
    (m.2.x.getD cf FV.nan).isNan = false

/-- The click distance `np.hypot(mx - vx, my - vy)` of a marker's
current-frame position from the (converted) click point. -/
noncomputable def clickDist (cf : ℕ) (px py : ℝ) (m : String × MarkerSeries ℝ) :
    FV ℝ :=
  hypotF (FV.sub (m.2.x.getD cf FV.nan) (FV.val px))
    (FV.sub (m.2.y.getD cf FV.nan) (FV.val py))

/-- One iteration of the nearest-marker scan: skip markers with no sample
at the current frame or an invalid x coordinate, otherwise compare the
click distance against the best distance so far (initially the 50 px
threshold) and keep the strictly closer marker. -/
noncomputable def clickStep (cf : ℕ) (px py : ℝ) (acc : Option String × ℝ)
    (m : String × MarkerSeries ℝ) : Option String × ℝ :=
  if cf < m.2.x.length then
    if (m.2.x.getD cf FV.nan).le0 || (m.2.x.getD cf FV.nan).isNan then acc
    else
      match clickDist cf px py m with
      | FV.val d => if d < acc.2 then (some m.1, d) else acc
      | FV.nan => acc
  else acc

/-- The scan over all markers with `best, best_d = None, 50`. -/
noncomputable def nearestScan (markers : List (String × MarkerSeries ℝ))
    (cf : ℕ) (px py : ℝ) : Option String × ℝ :=
  markers.foldl (clickStep cf px py) (none, 50)

/-- `Sports2DApp._on_video_click` restricted to its selection effect:
convert the click to frame-pixel space, scan, and update the selected
joint only when a marker was found (`if best:` — Python string
truthiness, so an empty-string name would not update). -/
noncomputable def onVideoClick (trcLoaded : Bool)
    (markers : List (String × MarkerSeries ℝ)) (sel : Option String)
    (cf : ℕ) (pos : ℝ × ℝ) (offx offy sf : ℝ) : Option String :=
  if trcLoaded then
    let px := (pos.1 - offx) / sf
    let py := (pos.2 - offy) / sf
    match (nearestScan markers cf px py).1 with
    | some best => if best = "" then sel else some best
    | none => sel
  else sel

/-! ### `Sports2DApp._draw_overlays`

The renderer is modelled by the lists of geometric primitives it would
draw on the frame (`cv2.line` / `cv2.circle` / `cv2.putText` calls).
The text annotations next to the selected dot share the dot's own gate
and carry no geometry of their own, so they are represented by the dot's
`big` flag. -/

/-- A dot drawn for a marker (`big` = the selected marker's larger dot
with its label). -/
structure Dot (α : Type) where
  name : String
  x : FV α
  y : FV α
  big : Bool
  deriving DecidableEq

/-- A line segment drawn between two float points. -/
structure Seg (α : Type) where
  x1 : FV α
  y1 : FV α
  x2 : FV α
  y2 : FV α
  deriving DecidableEq

/-- The static `SKELETON_CONNECTIONS` list. -/
def SKELETON_CONNECTIONS : List (String × String) :=
  [("Nose", "Neck"), ("Neck", "Head"),
   ("Neck", "RShoulder"), ("RShoulder", "RElbow"), ("RElbow", "RWrist"),
   ("Neck", "LShoulder"), ("LShoulder", "LElbow"), ("LElbow", "LWrist"),
   ("Neck", "Hip"),
   ("Hip", "RHip"), ("RHip", "RKnee"), ("RKnee", "RAnkle"),
   ("RAnkle", "RHeel"), ("RAnkle", "RBigToe"), ("RAnkle", "RSmallToe"),
   ("Hip", "LHip"), ("LHip", "LKnee"), ("LKnee", "LAnkle"),
   ("LAnkle", "LHeel"), ("LAnkle", "LBigToe"), ("LAnkle", "LSmallToe")]

/-- The `x1 > 0 and x2 > 0 and not (np.isnan(x1) or np.isnan(x2))`
gate used by the skeleton and absolute-trail passes (only the x
coordinates are consulted). -/
def validPair [LinearOrderedField α] (x1 x2 : FV α) : Bool :=
  x1.gt0 && x2.gt0 && !(x1.isNan || x2.isNan)

/-- The absolute trail of the selected marker: segments joining the
positions at frames `i` and `i+1` over the 60-frame trailing window,
gated on both x coordinates; `.2` is the colour intensity
`min(255, int(255 * (i - (idx - trail_len)) / max(trail_len, 1)))`. -/
def drawTrail [LinearOrderedField α] (c : MarkerSeries α) (idx : ℕ) :
    List (Seg α × ℕ) :=
  let trailLen := min 60 idx
  (List.range' (idx - trailLen) trailLen).filterMap (fun i =>
    if i < c.x.length ∧ i + 1 < c.x.length then
      let x1 := c.x.getD i .nan
      let y1 := c.y.getD i .nan
      let x2 := c.x.getD (i + 1) .nan
      let y2 := c.y.getD (i + 1) .nan
      if validPair x1 x2 then
        some (⟨x1, y1, x2, y2⟩, min 255 ((255 * (i - (idx - trailLen))) / max trailLen 1))
      else none
    else none)

/-- The reference-relative trail: drawn only when the `Hip` marker exists,
has a sample at the current frame and its x there is valid; each window
frame `i` is skipped when a series index is out of range or the Hip x at
`i` is invalid, and otherwise contributes the segment joining the
recentered points `c[k] - hip[k'] + hip[idx]` for `k = i` and the clamped
`k = j`. -/
def drawRelTrail [LinearOrderedField α] (markers : List (String × MarkerSeries α))
    (c : MarkerSeries α) (idx : ℕ) : List (Seg α) :=
  match markers.lookup "Hip" with
  | none => []
  | some hp =>
    if idx < hp.x.length then
      let hipX := hp.x.getD idx .nan
      let hipY := hp.y.getD idx .nan
      if hipX.gt0 && !hipX.isNan then
        let trailLen := min 60 idx
        (List.range' (idx - trailLen) trailLen).filterMap (fun i =>
          if c.x.length ≤ i ∨ c.x.length ≤ i + 1 ∨ hp.x.length ≤ i then none
          else
            let hxi := hp.x.getD i .nan
            let hyi := hp.y.getD i .nan
            if hxi.le0 || hxi.isNan then none
            else
              let rx1 := FV.add (FV.sub (c.x.getD i .nan) hxi) hipX
              let ry1 := FV.add (FV.sub (c.y.getD i .nan) hyi) hipY
              let j := min (i + 1) (c.x.length - 1)
              let hxj := hp.x.getD (min j (hp.x.length - 1)) .nan
              let hyj := hp.y.getD (min j (hp.y.length - 1)) .nan
              let rx2 := FV.add (FV.sub (c.x.getD j .nan) hxj) hipX
              let ry2 := FV.add (FV.sub (c.y.getD j .nan) hyj) hipY
              some ⟨rx1, ry1, rx2, ry2⟩)
      else []
    else []

/-- The skeleton pass: one bone segment per connection whose two markers
exist, have samples at the frame, and pass the x-validity gate. -/
def drawSkeleton [LinearOrderedField α] (markers : List (String × MarkerSeries α))
    (idx : ℕ) : List (Seg α) :=
  SKELETON_CONNECTIONS.filterMap (fun ab =>
    match markers.lookup ab.1, markers.lookup ab.2 with
    | some ca, some cb =>
      if idx < ca.x.length ∧ idx < cb.x.length then
        let x1 := ca.x.getD idx .nan
        let y1 := ca.y.getD idx .nan
        let x2 := cb.x.getD idx .nan
        let y2 := cb.y.getD idx .nan
        if validPair x1 x2 then some ⟨x1, y1, x2, y2⟩ else none
      else none
    | _, _ => none)

/-- The dots pass: every marker with a sample at the frame whose x is
neither `<= 0` nor NaN gets a dot; the selected marker's dot is `big`. -/
def drawDots [LinearOrderedField α] (markers : List (String × MarkerSeries α))
    (sel : Option String) (idx : ℕ) : List (Dot α) :=
  markers.filterMap (fun nc =>
    if idx < nc.2.x.length then
      let x := nc.2.x.getD idx .nan
      let y := nc.2.y.getD idx .nan
      if x.le0 || x.isNan then none
      else some ⟨nc.1, x, y, decide (sel = some nc.1)⟩
    else none)

/-- Everything `_draw_overlays` draws for one frame. -/
structure Overlay (α : Type) where
  trail : List (Seg α × ℕ)
  relTrail : List (Seg α)
  bones : List (Seg α)
  dots : List (Dot α)
  deriving DecidableEq

/-- `Sports2DApp._draw_overlays`: no trc data means nothing is drawn;
the two trails need a selected joint present in the marker dictionary
(`if self.selected_joint and ...` — Python string truthiness) and their
respective toggles. -/
def drawOverlays [LinearOrderedField α] (trc : Option (TrcData α))
    (sel : Option String) (showTraj showRel : Bool) (idx : ℕ) : Overlay α :=
  match trc with
  | none => ⟨[], [], [], []⟩
  | some t =>
    let marks := t.markers
    let trails : List (Seg α × ℕ) × List (Seg α) :=
      match sel with
      | some s =>
        if s = "" then ([], [])
        else
          match marks.lookup s with
          | some c => (if showTraj then drawTrail c idx else [],
                       if showRel then drawRelTrail marks c idx else [])
          | none => ([], [])
      | none => ([], [])
    ⟨trails.1, trails.2, drawSkeleton marks idx, drawDots marks sel idx⟩

/-! ### Playback (`_toggle_play`, `_advance_frame`, `_seek`, `_set_frame`) -/

/-- Playback/render state of the app.  `lastRendered` stands for the
rendering side effects of a successful `_set_frame` (decoded frame,
pixmap, slider and label updates). -/
structure PlayState where
  capOpen : Bool
  current_frame : ℤ
  total_frames : ℤ
  fps : ℚ
  timerActive : Bool
  timerInterval : ℤ
  lastRendered : Option ℤ
  deriving DecidableEq

/-- Python `int(...)` on a float: truncation toward zero. -/
def pyTrunc (q : ℚ) : ℤ :=
  if q < 0 then ⌈q⌉ else ⌊q⌋

/-- `Sports2DApp._set_frame`: a no-op without an open capture or for an
out-of-range index; otherwise `current_frame` is set first, and the
rendering side effects happen only if the frame read succeeds (`readOk`
models `self.cap.read()`). -/
def setFrame (readOk : ℤ → Bool) (st : PlayState) (idx : ℤ) : PlayState :=
  if ¬ st.capOpen ∨ idx < 0 ∨ st.total_frames ≤ idx then st
  else
    let st1 := { st with current_frame := idx }
    if readOk idx then { st1 with lastRendered := some idx } else st1

/-- `Sports2DApp._seek` forwards the slider value to `_set_frame`. -/
def seek (readOk : ℤ → Bool) (st : PlayState) (v : ℤ) : PlayState :=
  setFrame readOk st v

/-- `Sports2DApp._toggle_play`: stop the timer if active; otherwise,
with an open capture, start it with interval `int(1000 / self.fps)`. -/
def togglePlay (st : PlayState) : PlayState :=
  if st.timerActive then { st with timerActive := false }
  else if ¬ st.capOpen then st
  else { st with timerActive := true, timerInterval := pyTrunc (1000 / st.fps) }

/-- `Sports2DApp._advance_frame` (the timer tick): advance by one frame
until the last frame is reached, then stop the timer. -/
def advanceFrame (readOk : ℤ → Bool) (st : PlayState) : PlayState :=
  if st.current_frame < st.total_frames - 1 then setFrame readOk st (st.current_frame + 1)
  else { st with timerActive := false }

/-- A frame source whose reads always succeed (used to instantiate
`readOk` on concrete states). -/
def alwaysTrue : ℤ → Bool := fun _ => true

/-! ## Claims -/

/-- C5: `smooth` returns its input unchanged whenever the series length
is at most the window length 11, and applies the window-11 degree-3
Savitzky-Golay filter whenever the series is strictly longer. -/
theorem claim5_smooth_identity {α : Type} [LinearOrderedField α] (arr : List (FV α)) :
    (arr.length ≤ 11 → smooth arr = arr) ∧
    (11 < arr.length → smooth arr = savgol11 arr) := by
  constructor
  · intro h
    simp [smooth, Nat.not_lt.mpr h]
  · intro h
    simp [smooth, h]

/-- Witness for C5 at a concrete three-sample series. -/
theorem claim5_smooth_identity_witness :
    smooth [FV.val (1 : ℚ), FV.val 2, FV.val 3] = [FV.val (1 : ℚ), FV.val 2, FV.val 3] :=
  (claim5_smooth_identity [FV.val (1 : ℚ), FV.val 2, FV.val 3]).1 (by decide)

/-- C10: setting an out-of-range frame index (or any index with no open
video) is a complete no-op, for `_set_frame` and for `_seek`; and any
frame-setting call preserves `0 ≤ current_frame < total_frames`. -/
theorem claim10_setFrame_guard (readOk : ℤ → Bool) (st : PlayState) (idx : ℤ) :
    ((¬ st.capOpen ∨ idx < 0 ∨ st.total_frames ≤ idx) →
      setFrame readOk st idx = st ∧ seek readOk st idx = st) ∧
    (0 ≤ st.current_frame → st.current_frame < st.total_frames →
      0 ≤ (setFrame readOk st idx).current_frame ∧
      (setFrame readOk st idx).current_frame < (setFrame readOk st idx).total_frames) := by
  constructor
  · intro h
    have h1 : setFrame readOk st idx = st := by
      unfold setFrame
      rw [if_pos h]
    exact ⟨h1, by rw [seek]; exact h1⟩
  · intro h0 h1
    unfold setFrame
    split
    · exact ⟨h0, h1⟩
    · rename_i hguard
      push_neg at hguard
      split <;> exact ⟨hguard.2.1, hguard.2.2⟩

/-- Witness for C10: seeking to index 20 of a 10-frame video changes
nothing. -/
theorem claim10_setFrame_guard_witness :
    setFrame alwaysTrue ⟨true, 0, 10, 30, false, 0, none⟩ 20 =
      (⟨true, 0, 10, 30, false, 0, none⟩ : PlayState) ∧
    seek alwaysTrue ⟨true, 0, 10, 30, false, 0, none⟩ 20 =
      (⟨true, 0, 10, 30, false, 0, none⟩ : PlayState) :=
  (claim10_setFrame_guard alwaysTrue ⟨true, 0, 10, 30, false, 0, none⟩ 20).1
    (Or.inr (Or.inr (by decide)))

/-- C9 (amended): starting playback arms the timer with interval
`int(1000 / fps)` (truncated to a whole number of milliseconds, not the
exact `1000 / frame_rate` of the claim); each tick in the playing state
with an open video advances `current_frame` by exactly one while the
timer stays armed; at the last frame a tick stops the timer without
advancing; hence automatic playback never pushes `current_frame` past
`total_frames - 1`. -/
theorem claim9_tick_advance (readOk : ℤ → Bool) (st : PlayState) :
    (st.timerActive = false → st.capOpen = true →
      (togglePlay st).timerActive = true ∧
      (togglePlay st).timerInterval = pyTrunc (1000 / st.fps)) ∧
    (st.capOpen = true → 0 ≤ st.current_frame →
      st.current_frame < st.total_frames - 1 →
      (advanceFrame readOk st).current_frame = st.current_frame + 1 ∧
      (advanceFrame readOk st).timerActive = st.timerActive) ∧
    (¬ st.current_frame < st.total_frames - 1 →
      (advanceFrame readOk st).current_frame = st.current_frame ∧
      (advanceFrame readOk st).timerActive = false) ∧
    (st.current_frame ≤ st.total_frames - 1 →
      (advanceFrame readOk st).current_frame ≤ st.total_frames - 1) := by
  refine ⟨?_, ?_, ?_, ?_⟩
  · intro hact hcap
    simp [togglePlay, hact, hcap]
  · intro hcap h0 hlt
    have hguard : ¬ (¬ st.capOpen ∨ st.current_frame + 1 < 0 ∨
        st.total_frames ≤ st.current_frame + 1) := by
      push_neg
      exact ⟨hcap, by omega, by omega⟩
    have hadv : advanceFrame readOk st = setFrame readOk st (st.current_frame + 1) := by
      unfold advanceFrame
      rw [if_pos hlt]
    rw [hadv]
    unfold setFrame
    rw [if_neg hguard]
    split <;> exact ⟨rfl, rfl⟩
  · intro hge
    constructor <;> simp [advanceFrame, if_neg hge]
  · intro hle
    unfold advanceFrame
    split
    · rename_i hlt
      unfold setFrame
      split
      · omega
      · split <;> · show st.current_frame + 1 ≤ _; omega
    · exact hle

/-- Witness for C9 at fps 25 (where `int(1000/25) = 40`), frame 0 of 10. -/
theorem claim9_tick_advance_witness :
    (togglePlay ⟨true, 0, 10, 25, false, 0, none⟩).timerInterval = 40 ∧
    (advanceFrame alwaysTrue ⟨true, 0, 10, 25, false, 0, none⟩).current_frame = 0 + 1 :=
  ⟨((claim9_tick_advance alwaysTrue ⟨true, 0, 10, 25, false, 0, none⟩).1 rfl rfl).2.trans
      (by norm_num [pyTrunc]),
   ((claim9_tick_advance alwaysTrue ⟨true, 0, 10, 25, false, 0, none⟩).2.1 rfl (by decide)
      (by decide)).1⟩

/-- Counterexample for C9 as stated: at fps 30 the timer is armed with a
33 ms interval, which is not the claimed `1000 / frame_rate` ms. -/
theorem claim9_interval_counterexample :
    (togglePlay ⟨true, 0, 10, 30, false, 0, none⟩).timerInterval = 33 ∧
    ((33 : ℤ) : ℚ) ≠ 1000 / 30 := by
  constructor
  · norm_num [togglePlay, pyTrunc]
  · norm_num

/-- C4: a calibration line whose endpoints, converted to frame-pixel
space, lie closer than 5 pixels is rejected with the whole calibration
state (both `px_per_unit` and `unit_name`) unchanged. -/
theorem claim4_degenerate_rejected (st : CalState) (p1 p2 : ℝ × ℝ)
    (offx offy sf : ℝ) (ok : Bool) (len : ℝ)
    (h : pxDist p1 p2 offx offy sf < 5) :
    onCalibrationLine st p1 p2 offx offy sf ok len = st := by
  simp [onCalibrationLine, if_pos h]

/-- Witness for C4: a zero-length line is rejected. -/
theorem claim4_degenerate_rejected_witness :
    onCalibrationLine ⟨none, "px"⟩ (0, 0) (0, 0) 0 0 1 true 1 = ⟨none, "px"⟩ :=
  claim4_degenerate_rejected ⟨none, "px"⟩ (0, 0) (0, 0) 0 0 1 true 1
    (by simp [pxDist])

/-- C3: an accepted calibration (converted distance at least 5 px,
confirmed positive real length) stores `px_per_unit = d / L`, after which
`_scale_val` maps the pixel distance `d` back to `L` exactly; with no
calibration set, `_scale_val` is the identity. -/
theorem claim3_calibration_inverse (st : CalState) (p1 p2 : ℝ × ℝ)
    (offx offy sf : ℝ) (len : ℝ)
    (h5 : 5 ≤ pxDist p1 p2 offx offy sf) (hlen : 0 < len) :
    (onCalibrationLine st p1 p2 offx offy sf true len).pxPerUnit =
      some (pxDist p1 p2 offx offy sf / len) ∧
    scaleVal (onCalibrationLine st p1 p2 offx offy sf true len)
      (pxDist p1 p2 offx offy sf) = len ∧
    (∀ st' : CalState, ∀ v : ℝ, st'.pxPerUnit = none → scaleVal st' v = v) := by
  have hd : (0 : ℝ) < pxDist p1 p2 offx offy sf := lt_of_lt_of_le (by norm_num) h5
  have hnlt : ¬ pxDist p1 p2 offx offy sf < 5 := not_lt.mpr h5
  have hok : (true = true) ∧ 0 < len := ⟨rfl, hlen⟩
  have hres : onCalibrationLine st p1 p2 offx offy sf true len =
      ⟨some (pxDist p1 p2 offx offy sf / len), "m"⟩ := by
    simp [onCalibrationLine, if_neg hnlt, hlen]
  refine ⟨by rw [hres], ?_, ?_⟩
  · rw [hres]
    have hq : pxDist p1 p2 offx offy sf / len ≠ 0 :=
      ne_of_gt (div_pos hd hlen)
    simp only [scaleVal, if_neg hq]
    field_simp
  · intro st' v hnone
    simp [scaleVal, hnone]

/-- Witness for C3: the line (0,0)-(100,0) with real length 2 gives
`px_per_unit = 50` and `scale_to_unit(100) = 2` (end-to-end scenario B). -/
theorem claim3_calibration_inverse_witness :
    (onCalibrationLine ⟨none, "px"⟩ (0, 0) (100, 0) 0 0 1 true 2).pxPerUnit = some 50 ∧
    scaleVal (onCalibrationLine ⟨none, "px"⟩ (0, 0) (100, 0) 0 0 1 true 2) 100 = 2 := by
  have hd : pxDist (0, 0) (100, 0) 0 0 1 = 100 := by
    simp only [pxDist]
    rw [show (((100:ℝ), (0:ℝ)).1 - 0) / 1 - ((((0:ℝ), (0:ℝ)).1 - 0) / 1) = 100 by norm_num,
        show (((100:ℝ), (0:ℝ)).2 - 0) / 1 - ((((0:ℝ), (0:ℝ)).2 - 0) / 1) = 0 by norm_num]
    rw [show (100:ℝ) ^ 2 + 0 ^ 2 = 100 ^ 2 by ring, Real.sqrt_sq (by norm_num)]
  have h := claim3_calibration_inverse ⟨none, "px"⟩ (0, 0) (100, 0) 0 0 1 2
    (by rw [hd]; norm_num) (by norm_num)
  refine ⟨h.1.trans ?_, ?_⟩
  · rw [hd]; norm_num
  · have := h.2.1
    rwa [hd] at this

/-- A float that is neither `<= 0` nor NaN satisfies `> 0`. -/
theorem FV.gt0_of_checks {α : Type} [LinearOrderedField α] (x : FV α)
    (h1 : x.le0 = false) (h2 : x.isNan = false) : x.gt0 = true := by
  cases x with
  | nan => simp at h2
  | val a =>
    simp only [FV.le0_val, decide_eq_false_iff_not, not_le] at h1
    simpa using h1

/-- Every dot emitted by the dots pass carries a positive, non-NaN x. -/
theorem drawDots_valid {α : Type} [LinearOrderedField α]
    (markers : List (String × MarkerSeries α)) (sel : Option String) (idx : ℕ) :
    ∀ d ∈ drawDots markers sel idx, d.x.gt0 = true ∧ d.x.isNan = false := by
  intro d hd
  simp only [drawDots, List.mem_filterMap] at hd
  obtain ⟨nc, -, hf⟩ := hd
  split at hf
  · split at hf
    · exact absurd hf (by simp)
    · rename_i hcond
      simp only [Bool.or_eq_true, not_or, Bool.not_eq_true] at hcond
      cases hf
      exact ⟨FV.gt0_of_checks _ hcond.1 hcond.2, hcond.2⟩
  · exact absurd hf (by simp)

/-- Every bone emitted by the skeleton pass passes the x-validity gate. -/
theorem drawSkeleton_valid {α : Type} [LinearOrderedField α]
    (markers : List (String × MarkerSeries α)) (idx : ℕ) :
    ∀ s ∈ drawSkeleton markers idx, validPair s.x1 s.x2 = true := by
  intro s hs
  simp only [drawSkeleton, List.mem_filterMap] at hs
  obtain ⟨ab, -, hf⟩ := hs
  split at hf
  · split at hf
    · split at hf
      · rename_i hvalid
        cases Option.some.inj hf
        exact hvalid
      · exact Option.noConfusion hf
    · exact Option.noConfusion hf
  · exact Option.noConfusion hf

/-- Every absolute-trail segment passes the x-validity gate. -/
theorem drawTrail_valid {α : Type} [LinearOrderedField α]
    (c : MarkerSeries α) (idx : ℕ) :
    ∀ p ∈ drawTrail c idx, validPair p.1.x1 p.1.x2 = true := by
  intro p hp
  simp only [drawTrail, List.mem_filterMap] at hp
  obtain ⟨i, -, hf⟩ := hp
  split at hf
  · split at hf
    · rename_i hvalid
      cases hf
      exact hvalid
    · exact absurd hf (by simp)
  · exact absurd hf (by simp)

/-- C2 (amended): the renderer's missing-sample gate tests only the x
coordinate — every emitted dot has a positive non-NaN x, and every
skeleton bone and absolute-trail segment passes the two-endpoint
x-validity gate; the y coordinate is never consulted, and the kinematics
derivative input is the raw series with invalid samples included (see
the counterexample). -/
theorem claim2_missing_sample_gate {α : Type} [LinearOrderedField α]
    (trc : Option (TrcData α)) (sel : Option String) (st sr : Bool) (idx : ℕ) :
    (∀ d ∈ (drawOverlays trc sel st sr idx).dots, d.x.gt0 = true ∧ d.x.isNan = false) ∧
    (∀ s ∈ (drawOverlays trc sel st sr idx).bones, validPair s.x1 s.x2 = true) ∧
    (∀ p ∈ (drawOverlays trc sel st sr idx).trail, validPair p.1.x1 p.1.x2 = true) := by
  cases trc with
  | none => refine ⟨?_, ?_, ?_⟩ <;> intro z hz <;> simp [drawOverlays] at hz
  | some t =>
    refine ⟨?_, ?_, ?_⟩
    · intro d hd
      exact drawDots_valid t.markers sel idx d hd
    · intro s hs
      exact drawSkeleton_valid t.markers idx s hs
    · intro p hp
      rcases sel with _ | s
      · simp [drawOverlays] at hp
      · by_cases hs : s = ""
        · simp [drawOverlays, hs] at hp
        · rcases hc : t.markers.lookup s with _ | c
          · simp [drawOverlays, hs, hc] at hp
          · cases st with
            | false => simp [drawOverlays, hs, hc] at hp
            | true =>
              have hp' : p ∈ drawTrail c idx := by
                simpa [drawOverlays, hs, hc] using hp
              exact drawTrail_valid c idx p hp'

/-- A one-frame analysis whose only marker has a valid x but an invalid
(`-1`) y coordinate. -/
def trcBadY : TrcData ℚ :=
  ⟨1, FV.val 30, [("A", ⟨[FV.val 100], [FV.val (-1)]⟩)], ["A"], [FV.val 0]⟩

/-- Marker data with a missing sample (`-1`) at frame 1. -/
def trcGapA : TrcData ℝ :=
  ⟨3, FV.val 1, [("A", ⟨[FV.val 10, FV.val (-1), FV.val 10],
    [FV.val 20, FV.val 20, FV.val 20]⟩)], ["A"], [FV.val 0, FV.val 1, FV.val 2]⟩

/-- The same data with the missing sample written as `-5` instead. -/
def trcGapB : TrcData ℝ :=
  ⟨3, FV.val 1, [("A", ⟨[FV.val 10, FV.val (-5), FV.val 10],
    [FV.val 20, FV.val 20, FV.val 20]⟩)], ["A"], [FV.val 0, FV.val 1, FV.val 2]⟩

/-- Counterexample for C2 as stated: a marker whose y coordinate is
invalid (`-1 <= 0`) at the frame is still drawn as a dot (only x is
checked), and the derivative input of the kinematics is not purged of
invalid samples — changing an invalid sample from `-1` to `-5` changes
the cached `vx` series. -/
theorem claim2_missing_sample_counterexample :
    (drawOverlays (some trcBadY) none false false 0).dots =
      [⟨"A", FV.val 100, FV.val (-1), false⟩] ∧
    (computeKinematics "A" trcGapA none none).map KinCache.vx =
      some [FV.val (-11 : ℝ), FV.val 0, FV.val 11] ∧
    (computeKinematics "A" trcGapB none none).map KinCache.vx =
      some [FV.val (-15 : ℝ), FV.val 0, FV.val 15] ∧
    [FV.val (-11 : ℝ), FV.val 0, FV.val 11] ≠ [FV.val (-15 : ℝ), FV.val 0, FV.val 15] := by
  have hma : List.lookup "A" MARKER_TO_ANGLE = none := by decide
  have hgA : List.lookup "A" trcGapA.markers =
      some ⟨[FV.val 10, FV.val (-1), FV.val 10],
        [FV.val 20, FV.val 20, FV.val 20]⟩ := rfl
  have hgB : List.lookup "A" trcGapB.markers =
      some ⟨[FV.val 10, FV.val (-5), FV.val 10],
        [FV.val 20, FV.val 20, FV.val 20]⟩ := rfl
  refine ⟨by decide, ?_, ?_, by simp⟩
  · norm_num [computeKinematics, scaleOf, trcGapA, hgA, hma, smooth,
      npGradient, gradAux, magnitude, if_neg (show ¬(1 : ℝ) = 0 by norm_num)]
  · norm_num [computeKinematics, scaleOf, trcGapB, hgB, hma, smooth,
      npGradient, gradAux, magnitude, if_neg (show ¬(1 : ℝ) = 0 by norm_num)]

/-- A one-frame analysis with a fully valid marker. -/
def trcGoodDot : TrcData ℚ :=
  ⟨1, FV.val 30, [("A", ⟨[FV.val 100], [FV.val 50]⟩)], ["A"], [FV.val 0]⟩

/-- Witness for C2 (amended) on a concrete drawn dot. -/
theorem claim2_missing_sample_gate_witness :
    FV.gt0 (FV.val (100 : ℚ)) = true ∧ FV.isNan (FV.val (100 : ℚ)) = false :=
  (claim2_missing_sample_gate (some trcGoodDot) none false false 0).1
    ⟨"A", FV.val 100, FV.val 50, false⟩ (by decide)

/-- C8: when the reference (`Hip`) marker holds the same valid position
at every frame of the trailing window (including the current frame),
every recentred point of the reference-relative trail coincides with the
selected marker's absolute position at the corresponding frame: the
relative trail equals the absolute positions joined segment-wise (and
exactly, not merely within tolerance, in this exact-arithmetic model). -/
theorem claim8_relative_trail {α : Type} [LinearOrderedField α]
    (markers : List (String × MarkerSeries α)) (c hp : MarkerSeries α)
    (idx : ℕ) (hx hy : α)
    (hlook : markers.lookup "Hip" = some hp) (hpos : 0 < hx)
    (hconst : ∀ i, idx - min 60 idx ≤ i → i ≤ idx →
      hp.x.getD i FV.nan = FV.val hx ∧ hp.y.getD i FV.nan = FV.val hy) :
    drawRelTrail markers c idx =
      (List.range' (idx - min 60 idx) (min 60 idx)).filterMap (fun i =>
        if c.x.length ≤ i ∨ c.x.length ≤ i + 1 ∨ hp.x.length ≤ i then none
        else
          some ⟨c.x.getD i FV.nan, c.y.getD i FV.nan,
            c.x.getD (min (i + 1) (c.x.length - 1)) FV.nan,
            c.y.getD (min (i + 1) (c.x.length - 1)) FV.nan⟩) := by
  have hwin : idx - min 60 idx ≤ idx := Nat.sub_le _ _
  have hidx : idx < hp.x.length := by
    by_contra hcon
    push_neg at hcon
    have h1 := (hconst idx hwin le_rfl).1
    rw [List.getD_eq_default _ _ hcon] at h1
    exact FV.noConfusion h1
  have hidxy : idx < hp.y.length := by
    by_contra hcon
    push_neg at hcon
    have h1 := (hconst idx hwin le_rfl).2
    rw [List.getD_eq_default _ _ hcon] at h1
    exact FV.noConfusion h1
  have hhx := (hconst idx hwin le_rfl).1
  have hhy := (hconst idx hwin le_rfl).2
  simp only [drawRelTrail, hlook]
  rw [if_pos hidx, hhx, hhy]
  simp only [FV.gt0_val, FV.isNan_val, Bool.not_false, Bool.and_true, decide_eq_true_eq]
  rw [if_pos hpos]
  apply List.filterMap_congr
  intro i hi
  rw [List.mem_range'_1] at hi
  have h60 : min 60 idx ≤ idx := Nat.min_le_right _ _
  have hilt : i < idx := by omega
  have hilo : idx - min 60 idx ≤ i := hi.1
  by_cases hskip : c.x.length ≤ i ∨ c.x.length ≤ i + 1 ∨ hp.x.length ≤ i
  · rw [if_pos hskip, if_pos hskip]
  · rw [if_neg hskip, if_neg hskip]
    push_neg at hskip
    have hj : min (i + 1) (c.x.length - 1) = i + 1 := Nat.min_eq_left (by omega)
    rw [hj]
    have hjx : min (i + 1) (hp.x.length - 1) = i + 1 := Nat.min_eq_left (by omega)
    have hjy : min (i + 1) (hp.y.length - 1) = i + 1 := Nat.min_eq_left (by omega)
    rw [hjx, hjy]
    have h1 := (hconst i hilo (le_of_lt hilt)).1
    have h2 := (hconst i hilo (le_of_lt hilt)).2
    have h4 := (hconst (i + 1) (by omega) (by omega)).1
    have h5 := (hconst (i + 1) (by omega) (by omega)).2
    rw [h1, h2, h4, h5]
    simp only [FV.le0_val, FV.isNan_val, Bool.or_false, decide_eq_true_eq]
    rw [if_neg (not_le.mpr hpos)]
    rw [FV.sub_add_cancel_val, FV.sub_add_cancel_val,
      FV.sub_add_cancel_val, FV.sub_add_cancel_val]

/-- A stationary reference marker. -/
def hipW : MarkerSeries ℚ := ⟨[FV.val 5, FV.val 5], [FV.val 6, FV.val 6]⟩

/-- A moving selected marker. -/
def selW : MarkerSeries ℚ := ⟨[FV.val 1, FV.val 2], [FV.val 3, FV.val 4]⟩

/-- Witness for C8: with a stationary Hip, the relative trail at frame 1
is the absolute segment from (1,3) to (2,4). -/
theorem claim8_relative_trail_witness :
    drawRelTrail [("Hip", hipW)] selW 1 =
      [⟨FV.val (1 : ℚ), FV.val 3, FV.val 2, FV.val 4⟩] :=
  (claim8_relative_trail [("Hip", hipW)] selW hipW 1 5 6 rfl (by norm_num)
    (by intro i hlo hhi; interval_cases i <;> exact ⟨rfl, rfl⟩)).trans (by decide)

/-- A successful `mapMO` succeeds elementwise, in order. -/
theorem mapMO_forall₂ {β γ : Type} (f : β → Option γ) :
    ∀ (l : List β) (r : List γ), mapMO f l = some r →
      List.Forall₂ (fun a b => f a = some b) l r := by
  intro l
  induction l with
  | nil =>
    intro r h
    simp only [mapMO, Option.some.injEq] at h
    subst h
    exact List.Forall₂.nil
  | cons a tl ih =>
    intro r h
    simp only [mapMO, Option.bind_eq_some, Option.map_eq_some'] at h
    obtain ⟨b, hb, r', hr', rfl⟩ := h
    exact List.Forall₂.cons hb (ih r' hr')

/-- C7: whenever `load_trc` succeeds, the published record reads exactly:
the sample rate from token 0 and the frame count from token 2 of the
whitespace-split line 2 (0-indexed), the marker list from the tab-split
line 3 with blanks and the reserved labels `Frame#`/`Time` discarded, the
time series from column 1 of the tab-split rows after the 5 skipped
header lines, and for the marker at list position `i` its x series from
column `3·i + 2` and its y series from column `3·i + 3`. -/
theorem claim7_load_trc {α : Type} (pf : String → Option (FV α))
    (pint : String → Option ℤ) (lines : List String) (t : TrcData α)
    (h : load_trc pf pint lines = some t) :
    ((lines.get? 2).bind fun l2 => ((splitWs l2).get? 0).bind pf) = some t.data_rate ∧
    ((lines.get? 2).bind fun l2 => ((splitWs l2).get? 2).bind pint) = some t.frame_count ∧
    ((lines.get? 3).map fun l3 =>
        ((splitStr (fun ch => ch = '\t') l3).map pyStrip).filter
          (fun n => n != "" && n != "Frame#" && n != "Time")) = some t.marker_list ∧
    column pf ((lines.drop 5).map fun ln => splitStr (fun ch => ch = '\t') ln) 1 =
      some t.time ∧
    List.Forall₂
      (fun (p : ℕ × String) (m : String × MarkerSeries α) =>
        m.1 = p.2 ∧
        column pf ((lines.drop 5).map fun ln => splitStr (fun ch => ch = '\t') ln)
          (p.1 * 3 + 2) = some m.2.x ∧
        column pf ((lines.drop 5).map fun ln => splitStr (fun ch => ch = '\t') ln)
          (p.1 * 3 + 3) = some m.2.y)
      t.marker_list.enum t.markers := by
  simp only [load_trc, Option.bind_eq_some, Option.some.injEq] at h
  obtain ⟨l2, h2, rate, hrate, nf, hnf, l3, h3, ms, hms, tm, htm, ht⟩ := h
  subst ht
  refine ⟨?_, ?_, ?_, ?_, ?_⟩
  · rw [h2]
    simp only [Option.some_bind]
    exact Option.bind_eq_some.mpr hrate
  · rw [h2]
    simp only [Option.some_bind]
    exact Option.bind_eq_some.mpr hnf
  · rw [h3]
    rfl
  · exact htm
  · have hf2 := mapMO_forall₂ _ _ _ hms
    refine hf2.imp ?_
    intro p m hpm
    simp only [Option.bind_eq_some, Option.some.injEq] at hpm
    obtain ⟨xs, hxs, ys, hys, rfl⟩ := hpm
    exact ⟨rfl, hxs, hys⟩

/-- A concrete table-driven model of `float()` covering the witness file's
cells. -/
def pfW : String → Option (FV ℚ) := fun s =>
  if s = "30.0" then some (FV.val 30)
  else if s = "0.0" then some (FV.val 0)
  else if s = "1.0" then some (FV.val 1)
  else if s = "100" then some (FV.val 100)
  else if s = "101" then some (FV.val 101)
  else if s = "200" then some (FV.val 200)
  else if s = "201" then some (FV.val 201)
  else none

/-- A concrete model of `int()` for the witness file. -/
def pintW : String → Option ℤ := fun s => if s = "4" then some 4 else none

/-- A minimal well-formed trajectory file (as its list of lines). -/
def linesW : List String :=
  ["PathFileType\t4\t(X/Y)\ttest.trc",
   "DataRate\tCameraRate\tNumFrames\tNumMarkers\tUnits",
   "30.0 30.0 4 1",
   "Frame#\tTime\tRKnee\t\t",
   "\t\tX1\tY1\tZ1",
   "1\t0.0\t100\t200\t0",
   "2\t1.0\t101\t201\t0"]

/-- The record `load_trc` produces for `linesW`. -/
def trcW : TrcData ℚ :=
  ⟨4, FV.val 30,
   [("RKnee", ⟨[FV.val 100, FV.val 101], [FV.val 200, FV.val 201]⟩)],
   ["RKnee"], [FV.val 0, FV.val 1]⟩

/-- Witness for C7 on the concrete file. -/
theorem claim7_load_trc_witness :
    ((linesW.get? 2).bind fun l2 => ((splitWs l2).get? 0).bind pfW) =
      some (FV.val (30 : ℚ)) :=
  (claim7_load_trc pfW pintW linesW trcW (by decide)).1

/-- A float that is NaN or a non-negative value (the possible outputs of
`np.sqrt`). -/
def nonnegOrNan : FV ℝ → Prop
  | FV.nan => True
  | FV.val r => 0 ≤ r

/-- `np.sqrt` never produces a negative value. -/
theorem sqrtF_nonnegOrNan (x : FV ℝ) : nonnegOrNan (FV.sqrtF x) := by
  cases x with
  | nan => trivial
  | val r =>
    by_cases hr : r < 0
    · simp [FV.sqrtF, hr, nonnegOrNan]
    · simp only [FV.sqrtF, if_neg hr]
      exact Real.sqrt_nonneg r

/-- Every entry of a magnitude series is NaN or non-negative. -/
theorem magnitude_nonnegOrNan :
    ∀ (u v : List (FV ℝ)), ∀ z ∈ magnitude u v, nonnegOrNan z := by
  intro u
  induction u with
  | nil => intro v z hz; simp [magnitude] at hz
  | cons a tu ih =>
    intro v z hz
    cases v with
    | nil => simp [magnitude] at hz
    | cons b tv =>
      simp only [magnitude, List.zipWith_cons_cons, List.mem_cons] at hz
      rcases hz with rfl | hz
      · exact sqrtF_nonnegOrNan _
      · exact ih tv z hz

/-- `smooth` is the identity on series no longer than its window. -/
theorem smooth_of_short {α : Type} [LinearOrderedField α] (l : List (FV α))
    (h : l.length ≤ 11) : smooth l = l := by
  simp [smooth, Nat.not_lt.mpr h]

/-- `smooth` preserves length. -/
theorem smooth_length {α : Type} [LinearOrderedField α] (l : List (FV α)) :
    (smooth l).length = l.length := by
  unfold smooth
  split
  · simp [savgol11]
  · rfl

/-- `gradAux` preserves length. -/
theorem gradAux_length {α : Type} [LinearOrderedField α] (dt : α) :
    ∀ (l : List (FV α)) (prev : FV α), (gradAux dt prev l).length = l.length := by
  intro l
  induction l with
  | nil => intro prev; rfl
  | cons xh t ih =>
    intro prev
    cases t with
    | nil => rfl
    | cons y t2 =>
      simp only [gradAux, List.length_cons]
      rw [ih xh]
      simp

/-- `np.gradient` never lengthens its input. -/
theorem npGradient_length_le {α : Type} [LinearOrderedField α] (dt : α)
    (l : List (FV α)) : (npGradient dt l).length ≤ l.length := by
  cases l with
  | nil => simp [npGradient]
  | cons a t =>
    cases t with
    | nil => simp [npGradient]
    | cons b t2 =>
      simp [npGradient, gradAux_length]

/-- The linear caches of a short series stay non-negative: the smoothing
step degenerates to the identity, leaving raw magnitudes. -/
theorem vtotal_atotal_nonneg (c : MarkerSeries ℝ) (dt s : ℝ)
    (hc : c.x.length ≤ 11) :
    (∀ z ∈ smooth (magnitude (npGradient dt (c.x.map (FV.scale s)))
        (npGradient dt (c.y.map (FV.scale s)))), nonnegOrNan z) ∧
    (∀ z ∈ smooth (magnitude
        (npGradient dt (smooth (npGradient dt (c.x.map (FV.scale s)))))
        (npGradient dt (smooth (npGradient dt (c.y.map (FV.scale s)))))),
      nonnegOrNan z) := by
  have hvx : (npGradient dt (c.x.map (FV.scale s))).length ≤ 11 := by
    have h1 := npGradient_length_le dt (c.x.map (FV.scale s))
    simp only [List.length_map] at h1
    omega
  constructor
  · intro z hz
    have hm : (magnitude (npGradient dt (c.x.map (FV.scale s)))
        (npGradient dt (c.y.map (FV.scale s)))).length ≤ 11 := by
      simp only [magnitude, List.length_zipWith]
      omega
    rw [smooth_of_short _ hm] at hz
    exact magnitude_nonnegOrNan _ _ z hz
  · intro z hz
    have hax : (npGradient dt (smooth (npGradient dt (c.x.map (FV.scale s))))).length ≤ 11 := by
      have h1 := npGradient_length_le dt (smooth (npGradient dt (c.x.map (FV.scale s))))
      rw [smooth_length] at h1
      omega
    have hm : (magnitude
        (npGradient dt (smooth (npGradient dt (c.x.map (FV.scale s)))))
        (npGradient dt (smooth (npGradient dt (c.y.map (FV.scale s)))))).length ≤ 11 := by
      simp only [magnitude, List.length_zipWith]
      omega
    rw [smooth_of_short _ hm] at hz
    exact magnitude_nonnegOrNan _ _ z hz

/-- C1 (amended): for a selected marker whose series is no longer than
the 11-sample smoothing window (where the filter is the identity), every
entry of the cached `vtotal` and `atotal` is non-negative (or NaN where
NaN inputs propagate); the raw magnitudes are square roots and hence
non-negative everywhere, but on longer series the Savitzky-Golay filter
applied after the square root can undershoot below zero (see the
counterexample). -/
theorem claim1_total_nonneg (sel : String) (trc : TrcData ℝ)
    (mot : Option (MotData ℝ)) (ppu : Option ℝ) (k : KinCache)
    (h : computeKinematics sel trc mot ppu = some k)
    (hshort : ∀ c, trc.markers.lookup sel = some c → c.x.length ≤ 11) :
    (∀ z ∈ k.vtotal, nonnegOrNan z) ∧ (∀ z ∈ k.atotal, nonnegOrNan z) := by
  unfold computeKinematics at h
  split at h
  · rename_i c rate heq1 heq2
    have hc := hshort c heq1
    by_cases h0 : rate = 0
    · rw [if_pos h0] at h
      exact Option.noConfusion h
    · rw [if_neg h0] at h
      dsimp only at h
      split at h
      · split at h <;>
          (cases Option.some.inj h; exact vtotal_atotal_nonneg c (1 / rate) _ hc)
      · cases Option.some.inj h
        exact vtotal_atotal_nonneg c (1 / rate) _ hc
  · exact Option.noConfusion h

/-- A constant two-sample marker trajectory. -/
def trcFlat : TrcData ℝ :=
  ⟨2, FV.val 1, [("A", ⟨[FV.val 1, FV.val 1], [FV.val 1, FV.val 1]⟩)],
   ["A"], [FV.val 0, FV.val 1]⟩

/-- The kinematics cache computed for `trcFlat`. -/
def kinFlat : KinCache :=
  ⟨[FV.val 0, FV.val 1], [FV.val 0, FV.val 0], [FV.val 0, FV.val 0],
   [FV.val 0, FV.val 0], [FV.val 0, FV.val 0], [FV.val 0, FV.val 0],
   [FV.val 0, FV.val 0], none, none, none, none⟩

/-- Witness for C1 (amended) on a concrete short series. -/
theorem claim1_total_nonneg_witness : nonnegOrNan (FV.val (0 : ℝ)) := by
  have hlk : List.lookup "A" trcFlat.markers =
      some ⟨[FV.val 1, FV.val 1], [FV.val 1, FV.val 1]⟩ := rfl
  have hma : List.lookup "A" MARKER_TO_ANGLE = none := by decide
  have hs0 : FV.sqrtF (FV.val (0 : ℝ)) = FV.val 0 := by
    rw [FV.sqrtF_val_of_nonneg le_rfl, Real.sqrt_zero]
  have h : computeKinematics "A" trcFlat none none = some kinFlat := by
    norm_num [computeKinematics, scaleOf, trcFlat, kinFlat, hlk, hma, npGradient,
      gradAux, magnitude, smooth, hs0, if_neg (show ¬(1 : ℝ) = 0 by norm_num)]
  refine (claim1_total_nonneg "A" trcFlat none none kinFlat h ?_).1 (FV.val 0) ?_
  · intro c hc
    rw [hlk] at hc
    cases Option.some.inj hc
    norm_num
  · simp [kinFlat]

/-- A 12-sample trajectory oscillating in x between 100 and 1387 with a
constant y, so the raw speed magnitude is the impulse-like series
`[1287, 0, ..., 0, 1287]`. -/
def trcOsc : TrcData ℝ :=
  ⟨12, FV.val 1,
   [("A", ⟨[FV.val 100, FV.val 1387, FV.val 100, FV.val 1387, FV.val 100,
            FV.val 1387, FV.val 100, FV.val 1387, FV.val 100, FV.val 1387,
            FV.val 100, FV.val 1387],
           [FV.val 50, FV.val 50, FV.val 50, FV.val 50, FV.val 50, FV.val 50,
            FV.val 50, FV.val 50, FV.val 50, FV.val 50, FV.val 50, FV.val 50]⟩)],
   ["A"],
   [FV.val 0, FV.val 1, FV.val 2, FV.val 3, FV.val 4, FV.val 5, FV.val 6,
    FV.val 7, FV.val 8, FV.val 9, FV.val 10, FV.val 11]⟩

/-- A successful lookup and a non-zero, non-NaN rate make
`_compute_kinematics` publish a cache. -/
theorem computeKinematics_isSome (sel : String) (trc : TrcData ℝ)
    (mot : Option (MotData ℝ)) (ppu : Option ℝ) (c : MarkerSeries ℝ) (rate : ℝ)
    (hl : trc.markers.lookup sel = some c) (hr : trc.data_rate = FV.val rate)
    (h0 : rate ≠ 0) :
    ∃ k, computeKinematics sel trc mot ppu = some k := by
  simp only [computeKinematics, hl, hr]
  rw [if_neg h0]
  split
  · split
    · exact ⟨_, rfl⟩
    · exact ⟨_, rfl⟩
  · exact ⟨_, rfl⟩

/-- The published `vtotal` cache is the smoothed magnitude of the raw
derivative series. -/
theorem computeKinematics_vtotal (sel : String) (trc : TrcData ℝ)
    (mot : Option (MotData ℝ)) (ppu : Option ℝ) (k : KinCache)
    (h : computeKinematics sel trc mot ppu = some k) :
    ∃ c rate, trc.markers.lookup sel = some c ∧ trc.data_rate = FV.val rate ∧
      rate ≠ 0 ∧
      k.vtotal = smooth (magnitude
        (npGradient (1 / rate) (c.x.map (FV.scale (scaleOf ppu))))
        (npGradient (1 / rate) (c.y.map (FV.scale (scaleOf ppu))))) := by
  unfold computeKinematics at h
  split at h
  · rename_i c rate heq1 heq2
    by_cases h0 : rate = 0
    · rw [if_pos h0] at h
      exact Option.noConfusion h
    · rw [if_neg h0] at h
      dsimp only at h
      refine ⟨c, rate, heq1, heq2, h0, ?_⟩
      split at h
      · split at h <;> (cases Option.some.inj h; rfl)
      · cases Option.some.inj h
        rfl
  · exact Option.noConfusion h

/-- Counterexample for C1 as stated: on `trcOsc` (12 samples, longer than
the smoothing window) the cached `vtotal` at index 5 is `-108 < 0` — the
Savitzky-Golay filter applied after the square root undershoots. -/
theorem claim1_total_nonneg_counterexample :
    (computeKinematics "A" trcOsc none none).map (fun k => k.vtotal.get? 5) =
      some (some (FV.val (-108 : ℝ))) ∧ (-108 : ℝ) < 0 := by
  refine ⟨?_, by norm_num⟩
  have hlk : List.lookup "A" trcOsc.markers =
      some ⟨[FV.val 100, FV.val 1387, FV.val 100, FV.val 1387, FV.val 100,
            FV.val 1387, FV.val 100, FV.val 1387, FV.val 100, FV.val 1387,
            FV.val 100, FV.val 1387],
           [FV.val 50, FV.val 50, FV.val 50, FV.val 50, FV.val 50, FV.val 50,
            FV.val 50, FV.val 50, FV.val 50, FV.val 50, FV.val 50, FV.val 50]⟩ := rfl
  have hs0 : FV.sqrtF (FV.val (0 : ℝ)) = FV.val 0 := by
    rw [FV.sqrtF_val_of_nonneg le_rfl, Real.sqrt_zero]
  have hs1287 : FV.sqrtF (FV.val (1656369 : ℝ)) = FV.val 1287 := by
    rw [FV.sqrtF_val_of_nonneg (by norm_num),
      show (1656369 : ℝ) = 1287 ^ 2 by norm_num, Real.sqrt_sq (by norm_num)]
  obtain ⟨k, hk⟩ := computeKinematics_isSome "A" trcOsc none none _ 1 hlk rfl one_ne_zero
  obtain ⟨c', rate', hl', hr', h0', hvt⟩ :=
    computeKinematics_vtotal "A" trcOsc none none k hk
  rw [hlk] at hl'
  cases Option.some.inj hl'
  have hrr : FV.val (1 : ℝ) = FV.val rate' := hr'
  cases FV.val.inj hrr
  rw [hk, Option.map_some', hvt]
  have e0 : scaleOf (none : Option ℝ) = 1 := rfl
  rw [e0]
  have e1 : List.map (FV.scale (1 : ℝ))
      [FV.val 100, FV.val 1387, FV.val 100, FV.val 1387, FV.val 100,
       FV.val 1387, FV.val 100, FV.val 1387, FV.val 100, FV.val 1387,
       FV.val 100, FV.val 1387] =
      [FV.val 100, FV.val 1387, FV.val 100, FV.val 1387, FV.val 100,
       FV.val 1387, FV.val 100, FV.val 1387, FV.val 100, FV.val 1387,
       FV.val 100, FV.val 1387] := by
    norm_num
  have e3 : List.map (FV.scale (1 : ℝ))
      [FV.val 50, FV.val 50, FV.val 50, FV.val 50, FV.val 50, FV.val 50,
       FV.val 50, FV.val 50, FV.val 50, FV.val 50, FV.val 50, FV.val 50] =
      [FV.val 50, FV.val 50, FV.val 50, FV.val 50, FV.val 50, FV.val 50,
       FV.val 50, FV.val 50, FV.val 50, FV.val 50, FV.val 50, FV.val 50] := by
    norm_num
  rw [e1, e3]
  have e2 : npGradient ((1 : ℝ) / 1)
      [FV.val 100, FV.val 1387, FV.val 100, FV.val 1387, FV.val 100,
       FV.val 1387, FV.val 100, FV.val 1387, FV.val 100, FV.val 1387,
       FV.val 100, FV.val 1387] =
      [FV.val 1287, FV.val 0, FV.val 0, FV.val 0, FV.val 0, FV.val 0,
       FV.val 0, FV.val 0, FV.val 0, FV.val 0, FV.val 0, FV.val 1287] := by
    norm_num [npGradient, gradAux]
  have e4 : npGradient ((1 : ℝ) / 1)
      [FV.val 50, FV.val 50, FV.val 50, FV.val 50, FV.val 50, FV.val 50,
       FV.val 50, FV.val 50, FV.val 50, FV.val 50, FV.val 50, FV.val 50] =
      [FV.val 0, FV.val 0, FV.val 0, FV.val 0, FV.val 0, FV.val 0,
       FV.val 0, FV.val 0, FV.val 0, FV.val 0, FV.val 0, FV.val 0] := by
    norm_num [npGradient, gradAux]
  rw [e2, e4]
  have e5 : magnitude
      [FV.val (1287 : ℝ), FV.val 0, FV.val 0, FV.val 0, FV.val 0, FV.val 0,
       FV.val 0, FV.val 0, FV.val 0, FV.val 0, FV.val 0, FV.val 1287]
      [FV.val 0, FV.val 0, FV.val 0, FV.val 0, FV.val 0, FV.val 0,
       FV.val 0, FV.val 0, FV.val 0, FV.val 0, FV.val 0, FV.val 0] =
      [FV.val 1287, FV.val 0, FV.val 0, FV.val 0, FV.val 0, FV.val 0,
       FV.val 0, FV.val 0, FV.val 0, FV.val 0, FV.val 0, FV.val 1287] := by
    norm_num [magnitude, hs0, hs1287]
  rw [e5]
  have e6 : (smooth
      [FV.val (1287 : ℝ), FV.val 0, FV.val 0, FV.val 0, FV.val 0, FV.val 0,
       FV.val 0, FV.val 0, FV.val 0, FV.val 0, FV.val 0, FV.val 1287]).get? 5 =
      some (FV.val (-108)) := by
    have h1 : smooth
        [FV.val (1287 : ℝ), FV.val 0, FV.val 0, FV.val 0, FV.val 0, FV.val 0,
         FV.val 0, FV.val 0, FV.val 0, FV.val 0, FV.val 0, FV.val 1287] =
        savgol11
        [FV.val (1287 : ℝ), FV.val 0, FV.val 0, FV.val 0, FV.val 0, FV.val 0,
         FV.val 0, FV.val 0, FV.val 0, FV.val 0, FV.val 0, FV.val 1287] := by
      unfold smooth
      rw [if_pos (by norm_num)]
    rw [h1]
    unfold savgol11
    rw [List.get?_ofFn]
    norm_num [List.ofFnNthVal, hatRow, wsum]
  rw [e6]

/-- A marker failing the checks leaves the scan state unchanged. -/
theorem clickStep_not_pass (cf : ℕ) (px py : ℝ) (acc : Option String × ℝ)
    (m : String × MarkerSeries ℝ) (h : ¬ markerPass cf m) :
    clickStep cf px py acc m = acc := by
  unfold clickStep
  by_cases h1 : cf < m.2.x.length
  · rw [if_pos h1]
    have hcond : ((m.2.x.getD cf FV.nan).le0 || (m.2.x.getD cf FV.nan).isNan) = true := by
      by_contra hc
      simp only [Bool.or_eq_true, not_or, Bool.not_eq_true] at hc
      exact h ⟨h1, hc.1, hc.2⟩
    rw [if_pos hcond]
  · rw [if_neg h1]

/-- A passing marker with NaN distance leaves the scan state unchanged. -/
theorem clickStep_nan (cf : ℕ) (px py : ℝ) (acc : Option String × ℝ)
    (m : String × MarkerSeries ℝ) (hp : markerPass cf m)
    (hd : clickDist cf px py m = FV.nan) :
    clickStep cf px py acc m = acc := by
  unfold clickStep
  rw [if_pos hp.1, if_neg (by rw [hp.2.1, hp.2.2]; simp), hd]

/-- A passing marker no closer than the best so far leaves the scan state
unchanged. -/
theorem clickStep_ge (cf : ℕ) (px py : ℝ) (acc : Option String × ℝ)
    (m : String × MarkerSeries ℝ) (d : ℝ) (hp : markerPass cf m)
    (hd : clickDist cf px py m = FV.val d) (hge : ¬ d < acc.2) :
    clickStep cf px py acc m = acc := by
  unfold clickStep
  rw [if_pos hp.1, if_neg (by rw [hp.2.1, hp.2.2]; simp), hd]
  exact if_neg hge

/-- A passing marker strictly closer than the best so far becomes the
new best. -/
theorem clickStep_lt (cf : ℕ) (px py : ℝ) (acc : Option String × ℝ)
    (m : String × MarkerSeries ℝ) (d : ℝ) (hp : markerPass cf m)
    (hd : clickDist cf px py m = FV.val d) (hlt : d < acc.2) :
    clickStep cf px py acc m = (some m.1, d) := by
  unfold clickStep
  rw [if_pos hp.1, if_neg (by rw [hp.2.1, hp.2.2]; simp), hd]
  exact if_pos hlt

/-- Full characterisation of the nearest-marker fold: either no passing
marker beats the incoming best distance and the state is unchanged, or
the result is the first passing marker attaining the final (strictly
smaller) best distance, every earlier passing marker being strictly
farther and every later one no closer. -/
theorem scan_fold_char (cf : ℕ) (px py : ℝ) :
    ∀ (l : List (String × MarkerSeries ℝ)) (acc : Option String × ℝ),
      (l.foldl (clickStep cf px py) acc = acc ∧
        ∀ m ∈ l, markerPass cf m → ∀ d, clickDist cf px py m = FV.val d →
          ¬ d < acc.2)
      ∨ (∃ l₁ m l₂ d, l = l₁ ++ m :: l₂ ∧ markerPass cf m ∧
          clickDist cf px py m = FV.val d ∧ d < acc.2 ∧
          l.foldl (clickStep cf px py) acc = (some m.1, d) ∧
          (∀ m' ∈ l₁, markerPass cf m' → ∀ d', clickDist cf px py m' = FV.val d' →
            d < d') ∧
          (∀ m' ∈ l₂, markerPass cf m' → ∀ d', clickDist cf px py m' = FV.val d' →
            ¬ d' < d)) := by
  intro l
  induction l with
  | nil =>
    intro acc
    left
    exact ⟨rfl, by simp⟩
  | cons hd tl ih =>
    intro acc
    by_cases hp : markerPass cf hd
    · rcases hdd : clickDist cf px py hd with _ | d
      · -- NaN distance: the head is skipped
        have hstep := clickStep_nan cf px py acc hd hp hdd
        rcases ih acc with ⟨hfold, hall⟩ |
          ⟨l₁, m, l₂, d, heq, hm, hdist, hlt, hfold, hbefore, hafter⟩
        · left
          refine ⟨by rw [List.foldl_cons, hstep, hfold], ?_⟩
          intro m hm hpm d hdm
          rcases List.mem_cons.mp hm with rfl | hm
          · exact absurd (hdd.symm.trans hdm) (by simp)
          · exact hall m hm hpm d hdm
        · right
          refine ⟨hd :: l₁, m, l₂, d, by rw [heq, List.cons_append], hm, hdist, hlt,
            by rw [List.foldl_cons, hstep, hfold], ?_, hafter⟩
          intro m' hm' hpm' d' hdm'
          rcases List.mem_cons.mp hm' with rfl | hm'
          · exact absurd (hdd.symm.trans hdm') (by simp)
          · exact hbefore m' hm' hpm' d' hdm'
      · by_cases hlt : d < acc.2
        · -- the head becomes the new best
          have hstep := clickStep_lt cf px py acc hd d hp hdd hlt
          rcases ih (some hd.1, d) with ⟨hfold, hall⟩ |
            ⟨l₁, m, l₂, d', heq, hm, hdist, hlt', hfold, hbefore, hafter⟩
          · right
            refine ⟨[], hd, tl, d, rfl, hp, hdd, hlt,
              by rw [List.foldl_cons, hstep, hfold], by simp, ?_⟩
            intro m' hm' hpm' dd hdm'
            simpa using hall m' hm' hpm' dd hdm'
          · right
            have hlt'' : d' < d := by simpa using hlt'
            refine ⟨hd :: l₁, m, l₂, d', by rw [heq, List.cons_append], hm, hdist,
              lt_trans hlt'' hlt,
              by rw [List.foldl_cons, hstep, hfold], ?_, hafter⟩
            intro m' hm' hpm' dd hdm'
            rcases List.mem_cons.mp hm' with rfl | hm'
            · have : d = dd := FV.val.inj (hdd.symm.trans hdm')
              rw [← this]
              exact hlt''
            · exact hbefore m' hm' hpm' dd hdm'
        · -- the head is no closer than the incoming best
          have hstep := clickStep_ge cf px py acc hd d hp hdd hlt
          rcases ih acc with ⟨hfold, hall⟩ |
            ⟨l₁, m, l₂, d', heq, hm, hdist, hlt', hfold, hbefore, hafter⟩
          · left
            refine ⟨by rw [List.foldl_cons, hstep, hfold], ?_⟩
            intro m hm hpm dd hdm
            rcases List.mem_cons.mp hm with rfl | hm
            · have : d = dd := FV.val.inj (hdd.symm.trans hdm)
              rw [← this]
              exact hlt
            · exact hall m hm hpm dd hdm
          · right
            refine ⟨hd :: l₁, m, l₂, d', by rw [heq, List.cons_append], hm, hdist, hlt',
              by rw [List.foldl_cons, hstep, hfold], ?_, hafter⟩
            intro m' hm' hpm' dd hdm'
            rcases List.mem_cons.mp hm' with rfl | hm'
            · have hdd' : d = dd := FV.val.inj (hdd.symm.trans hdm')
              rw [← hdd']
              exact lt_of_lt_of_le hlt' (not_lt.mp hlt)
            · exact hbefore m' hm' hpm' dd hdm'
    · -- head fails the checks
      have hstep := clickStep_not_pass cf px py acc hd hp
      rcases ih acc with ⟨hfold, hall⟩ |
        ⟨l₁, m, l₂, d', heq, hm, hdist, hlt', hfold, hbefore, hafter⟩
      · left
        refine ⟨by rw [List.foldl_cons, hstep, hfold], ?_⟩
        intro m hm hpm dd hdm
        rcases List.mem_cons.mp hm with rfl | hm
        · exact absurd hpm hp
        · exact hall m hm hpm dd hdm
      · right
        refine ⟨hd :: l₁, m, l₂, d', by rw [heq, List.cons_append], hm, hdist, hlt',
          by rw [List.foldl_cons, hstep, hfold], ?_, hafter⟩
        intro m' hm' hpm' dd hdm'
        rcases List.mem_cons.mp hm' with rfl | hm'
        · exact absurd hpm' hp
        · exact hbefore m' hm' hpm' dd hdm'

/-- C6 (amended): the click handler's nearest-marker selection,
characterised.  The candidate set is gated on the x coordinate only
(`markerPass`: a sample exists and x is neither `<= 0` nor NaN), exactly
as the code checks — the y coordinate is not consulted, so a marker with
valid x and invalid y is a candidate (see the counterexample).  Among
those candidates: no selection happens (and the current selection is
kept) exactly when no real click distance is below the 50 px threshold;
when a selection happens it is a candidate with distance below 50 that
is minimal, with every earlier candidate strictly farther (first wins on
ties) and every later one no closer; and the handler then stores exactly
that marker.  Markers have non-blank names (true of every
loader-produced marker list), so the Python `if best:` truthiness test
reduces to a `None` check. -/
theorem claim6_nearest_selection (markers : List (String × MarkerSeries ℝ))
    (sel : Option String) (cf : ℕ) (pos : ℝ × ℝ) (offx offy sf : ℝ)
    (hnb : ∀ m ∈ markers, m.1 ≠ "") :
    ((nearestScan markers cf ((pos.1 - offx) / sf) ((pos.2 - offy) / sf)).1 = none ↔
      ∀ m ∈ markers, markerPass cf m →
        ∀ d, clickDist cf ((pos.1 - offx) / sf) ((pos.2 - offy) / sf) m = FV.val d →
          ¬ d < 50) ∧
    (∀ b, (nearestScan markers cf ((pos.1 - offx) / sf) ((pos.2 - offy) / sf)).1 =
        some b →
      ∃ l₁ c l₂ d, markers = l₁ ++ (b, c) :: l₂ ∧ markerPass cf (b, c) ∧
        clickDist cf ((pos.1 - offx) / sf) ((pos.2 - offy) / sf) (b, c) = FV.val d ∧
        d < 50 ∧
        (∀ m' ∈ l₁, markerPass cf m' → ∀ d',
          clickDist cf ((pos.1 - offx) / sf) ((pos.2 - offy) / sf) m' = FV.val d' →
            d < d') ∧
        (∀ m' ∈ l₂, markerPass cf m' → ∀ d',
          clickDist cf ((pos.1 - offx) / sf) ((pos.2 - offy) / sf) m' = FV.val d' →
            ¬ d' < d)) ∧
    ((nearestScan markers cf ((pos.1 - offx) / sf) ((pos.2 - offy) / sf)).1 = none →
      onVideoClick true markers sel cf pos offx offy sf = sel) ∧
    (∀ b, (nearestScan markers cf ((pos.1 - offx) / sf) ((pos.2 - offy) / sf)).1 =
        some b →
      onVideoClick true markers sel cf pos offx offy sf = some b) := by
  have H := scan_fold_char cf ((pos.1 - offx) / sf) ((pos.2 - offy) / sf) markers
    (none, 50)
  refine ⟨⟨?_, ?_⟩, ?_, ?_, ?_⟩
  · intro hnone m hm hpm d hdm
    rcases H with ⟨hfold, hall⟩ |
      ⟨l₁, mm, l₂, dd, heq, hmm, hdist, hlt, hfold, hbef, haft⟩
    · simpa using hall m hm hpm d hdm
    · unfold nearestScan at hnone
      rw [hfold] at hnone
      simp at hnone
  · intro hfar
    rcases H with ⟨hfold, hall⟩ |
      ⟨l₁, mm, l₂, dd, heq, hmm, hdist, hlt, hfold, hbef, haft⟩
    · unfold nearestScan
      rw [hfold]
    · exfalso
      have hmem : mm ∈ markers := by rw [heq]; simp
      exact hfar mm hmem hmm dd hdist (by simpa using hlt)
  · intro b hb'
    rcases H with ⟨hfold, hall⟩ |
      ⟨l₁, mm, l₂, dd, heq, hmm, hdist, hlt, hfold, hbef, haft⟩
    · unfold nearestScan at hb'
      rw [hfold] at hb'
      exact absurd hb' (by simp)
    · unfold nearestScan at hb'
      rw [hfold] at hb'
      have hbb : mm.1 = b := by simpa using hb'
      obtain ⟨nm, c⟩ := mm
      cases hbb
      exact ⟨l₁, c, l₂, dd, heq, hmm, hdist, by simpa using hlt, hbef, haft⟩
  · intro hnone
    simp only [onVideoClick, if_true, hnone]
  · intro b hb'
    rcases H with ⟨hfold, hall⟩ |
      ⟨l₁, mm, l₂, dd, heq, hmm, hdist, hlt, hfold, hbef, haft⟩
    · unfold nearestScan at hb'
      rw [hfold] at hb'
      exact absurd hb' (by simp)
    · have hbb : mm.1 = b := by
        unfold nearestScan at hb'
        rw [hfold] at hb'
        simpa using hb'
      have hmem : mm ∈ markers := by rw [heq]; simp
      have hne : b ≠ "" := hbb ▸ hnb mm hmem
      simp only [onVideoClick, if_true, hb']
      rw [if_neg hne]

/-- Two markers for the selection witness: `A` at (103, 54) — distance 5
from the click — and `B` at (200, 50) — distance 100. -/
def markersW6 : List (String × MarkerSeries ℝ) :=
  [("A", ⟨[FV.val 103], [FV.val 54]⟩), ("B", ⟨[FV.val 200], [FV.val 50]⟩)]

/-- Witness for C6: clicking at (100, 50) selects marker `A`, at
distance 5 < 50, over `B` at distance 100. -/
theorem claim6_nearest_selection_witness :
    onVideoClick true markersW6 none 0 (100, 50) 0 0 1 = some "A" := by
  have h25 : FV.sqrtF (FV.val (25 : ℝ)) = FV.val 5 := by
    rw [FV.sqrtF_val_of_nonneg (by norm_num),
      show (25 : ℝ) = 5 ^ 2 by norm_num, Real.sqrt_sq (by norm_num)]
  have h10000 : FV.sqrtF (FV.val (10000 : ℝ)) = FV.val 100 := by
    rw [FV.sqrtF_val_of_nonneg (by norm_num),
      show (10000 : ℝ) = 100 ^ 2 by norm_num, Real.sqrt_sq (by norm_num)]
  have hdA : clickDist 0 ((((100 : ℝ), (50 : ℝ)).1 - 0) / 1)
      ((((100 : ℝ), (50 : ℝ)).2 - 0) / 1)
      ("A", ⟨[FV.val 103], [FV.val 54]⟩) = FV.val 5 := by
    unfold clickDist hypotF
    norm_num [h25]
  have hdB : clickDist 0 ((((100 : ℝ), (50 : ℝ)).1 - 0) / 1)
      ((((100 : ℝ), (50 : ℝ)).2 - 0) / 1)
      ("B", ⟨[FV.val 200], [FV.val 50]⟩) = FV.val 100 := by
    unfold clickDist hypotF
    norm_num [h10000]
  have hpA : markerPass 0 ("A", ⟨[FV.val 103], [FV.val 54]⟩) := by
    refine ⟨by norm_num, ?_, rfl⟩
    simp only [List.getD_cons_zero, FV.le0_val, decide_eq_false_iff_not]
    norm_num
  have hpB : markerPass 0 ("B", ⟨[FV.val 200], [FV.val 50]⟩) := by
    refine ⟨by norm_num, ?_, rfl⟩
    simp only [List.getD_cons_zero, FV.le0_val, decide_eq_false_iff_not]
    norm_num
  have hscan : (nearestScan markersW6 0 ((((100 : ℝ), (50 : ℝ)).1 - 0) / 1)
      ((((100 : ℝ), (50 : ℝ)).2 - 0) / 1)).1 = some "A" := by
    unfold nearestScan markersW6
    rw [List.foldl_cons,
      clickStep_lt _ _ _ _ _ _ hpA hdA (by norm_num),
      List.foldl_cons,
      clickStep_ge _ _ _ _ _ _ hpB hdB (by norm_num),
      List.foldl_nil]
  exact (claim6_nearest_selection markersW6 none 0 (100, 50) 0 0 1
    (by intro m hm; simp only [markersW6, List.mem_cons, List.mem_singleton] at hm
        rcases hm with rfl | rfl | hm
        · simp
        · simp
        · simp at hm)).2.2.2 "A" hscan

/-- Two markers for the C6 counterexample, with the click at (100, 30):
`A` has a valid x (116) but an invalid y (`0 <= 0`, a missing sample per
the spec's invariant) and is at distance 34; `B` is fully valid at
distance 40. -/
def markersC6 : List (String × MarkerSeries ℝ) :=
  [("A", ⟨[FV.val 116], [FV.val 0]⟩), ("B", ⟨[FV.val 140], [FV.val 30]⟩)]

/-- Counterexample for C6 as stated: the claim's candidate set is the
markers with a valid (non-missing) coordinate — x and y — yet the code
checks only x: here it selects `A`, whose y coordinate at the frame is
`0 <= 0` (missing), although `B` is the marker with both coordinates
valid at distance 40 < 50 and would be the claim's minimum-distance
candidate. -/
theorem claim6_nearest_selection_counterexample :
    onVideoClick true markersC6 none 0 (100, 30) 0 0 1 = some "A" ∧
    (markersC6.lookup "A").map (fun c => c.y.getD 0 FV.nan) = some (FV.val 0) ∧
    ((0 : ℝ) ≤ 0) ∧
    (markersC6.lookup "B").map (fun c => (c.x.getD 0 FV.nan, c.y.getD 0 FV.nan)) =
      some (FV.val 140, FV.val 30) ∧
    ((0 : ℝ) < 140) ∧ ((0 : ℝ) < 30) ∧
    clickDist 0 ((((100 : ℝ), (30 : ℝ)).1 - 0) / 1)
      ((((100 : ℝ), (30 : ℝ)).2 - 0) / 1)
      ("B", ⟨[FV.val 140], [FV.val 30]⟩) = FV.val 40 ∧
    ((40 : ℝ) < 50) := by
  have h1156 : FV.sqrtF (FV.val (1156 : ℝ)) = FV.val 34 := by
    rw [FV.sqrtF_val_of_nonneg (by norm_num),
      show (1156 : ℝ) = 34 ^ 2 by norm_num, Real.sqrt_sq (by norm_num)]
  have h1600 : FV.sqrtF (FV.val (1600 : ℝ)) = FV.val 40 := by
    rw [FV.sqrtF_val_of_nonneg (by norm_num),
      show (1600 : ℝ) = 40 ^ 2 by norm_num, Real.sqrt_sq (by norm_num)]
  have hdA : clickDist 0 ((((100 : ℝ), (30 : ℝ)).1 - 0) / 1)
      ((((100 : ℝ), (30 : ℝ)).2 - 0) / 1)
      ("A", ⟨[FV.val 116], [FV.val 0]⟩) = FV.val 34 := by
    unfold clickDist hypotF
    norm_num [h1156]
  have hdB : clickDist 0 ((((100 : ℝ), (30 : ℝ)).1 - 0) / 1)
      ((((100 : ℝ), (30 : ℝ)).2 - 0) / 1)
      ("B", ⟨[FV.val 140], [FV.val 30]⟩) = FV.val 40 := by
    unfold clickDist hypotF
    norm_num [h1600]
  have hpA : markerPass 0 ("A", ⟨[FV.val 116], [FV.val 0]⟩) := by
    refine ⟨by norm_num, ?_, rfl⟩
    simp only [List.getD_cons_zero, FV.le0_val, decide_eq_false_iff_not]
    norm_num
  have hpB : markerPass 0 ("B", ⟨[FV.val 140], [FV.val 30]⟩) := by
    refine ⟨by norm_num, ?_, rfl⟩
    simp only [List.getD_cons_zero, FV.le0_val, decide_eq_false_iff_not]
    norm_num
  have hscan : (nearestScan markersC6 0 ((((100 : ℝ), (30 : ℝ)).1 - 0) / 1)
      ((((100 : ℝ), (30 : ℝ)).2 - 0) / 1)).1 = some "A" := by
    unfold nearestScan markersC6
    rw [List.foldl_cons,
      clickStep_lt _ _ _ _ _ _ hpA hdA (by norm_num),
      List.foldl_cons,
      clickStep_ge _ _ _ _ _ _ hpB hdB (by norm_num),
      List.foldl_nil]
  refine ⟨?_, rfl, by norm_num, rfl, by norm_num, by norm_num, hdB,
    by norm_num⟩
  simp only [onVideoClick, if_true, hscan]
  rw [if_neg (by decide : ("A" : String) ≠ "")]

end Sports2D
